import Mathlib

/-!
Verification of `scripts/migrate-label-based-releases-to-release-pipelines/
migrate_to_release_pipeline.py`.

The script is a sequential reconciler over a remote GraphQL API.  We embed it
shallowly: every remote round trip is answered by an oracle (`Env`), and the
run is a pure function from that oracle, the parsed configuration and the
command-line flags to a trace of remote calls (`Event`) together with an
outcome (`Outcome`).  Python dictionaries coming back from the remote are
modelled by structures whose optional fields mirror `dict.get`; `sys.exit`
and raised exceptions are modelled by the `Outcome` type.
-/

namespace Migrate

/-- A sub-label as returned by the `issueLabels` query: `nodes { id name }`. -/
structure Label where
  id : String
  name : String
deriving Repr, DecidableEq

/-- A release as returned by the `releases` query or the `releaseCreate`
mutation: `{ id name version }`; `version` may be `null`. -/
structure Release where
  id : String
  name : String
  version : Option String
deriving Repr, DecidableEq

/-- `pageInfo { hasNextPage endCursor }` of a paginated response. -/
structure PageInfo where
  hasNextPage : Bool
  endCursor : Option String
deriving Repr, DecidableEq

/-- One page of a paginated response: `{ nodes pageInfo }`. -/
structure Page (α : Type) where
  nodes : List α
  pageInfo : PageInfo
deriving Repr, DecidableEq

/-- The `paginate` helper of the script.  The Python loop issues one query per
iteration, extends `nodes` with the page's nodes, and stops as soon as a page
reports `hasNextPage = false`; the remote is modelled as the sequence of pages
it answers with on successive calls (the advancing `after` cursor is the
remote's own `endCursor`, so it carries no information beyond the call
number).  Running off the end of the list models a remote that never clears
`hasNextPage`; no claim depends on that case. -/
def paginate {α : Type} : List (Page α) → List α
  | [] => []
  | p :: rest => p.nodes ++ (if p.pageInfo.hasNextPage then paginate rest else [])

/-- `paginate` consumes every answered page while `hasNextPage` holds. -/
theorem paginate_front_last {α : Type} (front : List (Page α)) (last : Page α)
    (hmid : ∀ p ∈ front, p.pageInfo.hasNextPage = true)
    (hlast : last.pageInfo.hasNextPage = false) :
    paginate (front ++ [last]) = ((front ++ [last]).map Page.nodes).flatten := by
  induction front with
  | nil =>
      simp [paginate, hlast]
  | cons x xs ih =>
      have hx : x.pageInfo.hasNextPage = true := hmid x (by simp)
      have hxs : ∀ p ∈ xs, p.pageInfo.hasNextPage = true := fun p hp => hmid p (by simp [hp])
      simp [paginate, hx, ih hxs]

/-- The remote's answer to one `graphql` call, as the script observes it:
a transport failure (`requests` exception / `raise_for_status`), a response
whose JSON carries an `errors` array, or a `data` object.  `raw` is the
textual rendering of the payload that Python would interpolate into the
error message (`{data['errors']}` resp. `{data}`). -/
inductive GqlAnswer (α : Type) where
  | transportFail (msg : String)
  | graphErrors (raw : String)
  | gqlData (d : α) (raw : String)
deriving Repr, DecidableEq

/-- The `releaseCreate` field of a mutation response:
`{ success release { id name version } }`. -/
structure ReleaseCreatePayload where
  success : Bool
  release : Release
deriving Repr, DecidableEq

/-- The body of `create_release` after the `graphql` call returned a data
dict `d`: raise `RuntimeError(f"releaseCreate failed: {data}")` unless
`data.get("releaseCreate", {}).get("success")` is truthy, else return
`data["releaseCreate"]["release"]`.  `d = none` models an absent
`releaseCreate` key. -/
def create_release (d : Option ReleaseCreatePayload) (raw : String) :
    Except String Release :=
  match d with
  | none => .error ("releaseCreate failed: " ++ raw)
  | some p =>
      if p.success then .ok p.release
      else .error ("releaseCreate failed: " ++ raw)

/-- The body of `add_issue_to_release` after the `graphql` call returned a
data dict: raise unless `data.get("issueToReleaseCreate", {}).get("success")`
is truthy.  `s` is that lookup (`none` = key chain absent). -/
def add_issue_to_release (s : Option Bool) (raw : String) :
    Except String Unit :=
  match s with
  | some true => .ok ()
  | some false => .error ("issueToReleaseCreate failed: " ++ raw)
  | none => .error ("issueToReleaseCreate failed: " ++ raw)

/-- The remote oracle for one run, fixing the answer to every call the
script can make.  `subLabels` and `catalog0` are the fully paginated results
of `get_sub_labels` and `get_releases_in_pipeline`; `issuesOf` answers
`get_issues_with_label` per label id; `createResp` answers the
`releaseCreate` mutation per `(name, stageId, version)` input and
`assocResp` the `issueToReleaseCreate` mutation per `(issueId, releaseId)`. -/
structure Env where
  pipelineId : String
  subLabels : List Label
  catalog0 : List Release
  issuesOf : String → List String
  createResp : String → Option String → Option String →
    GqlAnswer (Option ReleaseCreatePayload)
  assocResp : String → String → GqlAnswer (Option Bool)

/-- `create_release` including the `graphql` error paths: a transport error
propagates as raised, an `errors` array raises
`RuntimeError(f"GraphQL errors: {data['errors']}")`, and a data response goes
through the `success` check. -/
def doCreate (env : Env) (name : String) (stageId : Option String)
    (version : Option String) : Except String Release :=
  match env.createResp name stageId version with
  | .transportFail m => .error m
  | .graphErrors raw => .error ("GraphQL errors: " ++ raw)
  | .gqlData d raw => create_release d raw

/-- `add_issue_to_release` including the `graphql` error paths. -/
def doAssoc (env : Env) (issueId : String) (releaseId : String) :
    Except String Unit :=
  match env.assocResp issueId releaseId with
  | .transportFail m => .error m
  | .graphErrors raw => .error ("GraphQL errors: " ++ raw)
  | .gqlData d raw => add_issue_to_release d raw

/-- Python's `str.startswith` for one candidate: the candidate's characters
are a prefix of the string's. -/
def pyStartswith (s p : String) : Bool :=
  p.data.isPrefixOf s.data

/-- Lines 160-161 of the script: prepend `Bearer ` unless the key already
starts with `lin_api_` or `Bearer `
(`api_key.startswith(("lin_api_", "Bearer "))`). -/
def normalizeApiKey (k : String) : String :=
  if pyStartswith k "lin_api_" || pyStartswith k "Bearer " then k
  else "Bearer " ++ k

/-- The `stageId` field actually placed into the `ReleaseCreateInput`:
`create_release` omits it when `stage_id` is falsy (`None` or `""`). -/
def stageField (stage_id : Option String) : Option String :=
  match stage_id with
  | some s => if s = "" then none else some s
  | none => none

/-- One remote call of the run, with the `Authorization` header value it was
sent with.  Pagination inside a query is collapsed into one event; the claims
only distinguish query kinds and mutation arguments. -/
inductive Event where
  | querySubLabels (auth : String)
  | queryCatalog (auth : String)
  | queryIssues (auth : String) (labelId : String)
  | createRelease (auth : String) (pipelineId : String) (name : String)
      (stageId : Option String) (version : Option String)
  | assocIssue (auth : String) (issueId : String) (releaseId : String)
deriving Repr, DecidableEq

/-- The `Authorization` header value a call was sent with. -/
def Event.auth : Event → String
  | .querySubLabels a => a
  | .queryCatalog a => a
  | .queryIssues a _ => a
  | .createRelease a _ _ _ _ => a
  | .assocIssue a _ _ => a

/-- Is this event a `releaseCreate` mutation call? -/
def Event.isCreate : Event → Bool
  | .createRelease _ _ _ _ _ => true
  | _ => false

/-- Is this event an `issueToReleaseCreate` mutation call? -/
def Event.isAssoc : Event → Bool
  | .assocIssue _ _ _ => true
  | _ => false

/-- Is this event the release-catalog query (`get_releases_in_pipeline`)? -/
def Event.isCatalogQuery : Event → Bool
  | .queryCatalog _ => true
  | _ => false

/-- The `name` argument of a `releaseCreate` call, if the event is one. -/
def Event.createName : Event → Option String
  | .createRelease _ _ n _ _ => some n
  | _ => none

/-- The `releaseId` argument of an `issueToReleaseCreate` call. -/
def Event.assocTarget : Event → Option String
  | .assocIssue _ _ r => some r
  | _ => none

/-- The names of all `releaseCreate` calls in a trace, in call order. -/
def createNames (evs : List Event) : List String :=
  evs.filterMap Event.createName

/-- The target release ids of all `issueToReleaseCreate` calls in a trace. -/
def assocTargets (evs : List Event) : List String :=
  evs.filterMap Event.assocTarget

/-- Line 179 of the script: `r.get("version") == version or r.get("name") == name`,
where the loop is entered with `version = name`. -/
def matchesRelease (n : String) (r : Release) : Bool :=
  r.version == some n || r.name == n

/-- Lines 177-181: scan `existing_releases` in order and take the first
release matching the sub-label's name by version or by name. -/
def findRelease (catalog : List Release) (n : String) : Option Release :=
  catalog.find? (matchesRelease n)

/-- Lines 177-186: resolve a sub-label name to a release — reuse the first
match in the working catalog, else call `create_release` and append the
remote's release to the catalog.  Returns the mutation calls made, and
either the raised error or the release together with the updated catalog. -/
def reconcileRelease (env : Env) (hdr : String) (stage : Option String)
    (catalog : List Release) (name : String) :
    List Event × Except String (Release × List Release) :=
  match findRelease catalog name with
  | some r => ([], .ok (r, catalog))
  | none =>
      let ev := Event.createRelease hdr env.pipelineId name (stageField stage) (some name)
      match doCreate env name stage (some name) with
      | .ok r => ([ev], .ok (r, catalog ++ [r]))
      | .error e => ([ev], .error e)

/-- Lines 187-188: associate each issue with the release in list order; the
first raising call stops the loop.  Returns the association calls attempted
(the failing call included) and the raised error, if any. -/
def processIssues (env : Env) (hdr : String) (releaseId : String) :
    List String → List Event × Option String
  | [] => ([], none)
  | i :: rest =>
      match doAssoc env i releaseId with
      | .ok _ =>
          let r := processIssues env hdr releaseId rest
          (Event.assocIssue hdr i releaseId :: r.1, r.2)
      | .error e => ([Event.assocIssue hdr i releaseId], some e)

/-- One iteration of the `for lab in sub_labels` loop (lines 171-188):
fetch the label's issues, and unless `--dry-run` was given, resolve the
release and associate every issue.  Returns the calls made, the catalog
after the iteration, and the raised error, if any. -/
def processLabel (env : Env) (hdr : String) (stage : Option String)
    (dryRun : Bool) (catalog : List Release) (lab : Label) :
    List Event × List Release × Option String :=
  let ev0 := Event.queryIssues hdr lab.id
  if dryRun then ([ev0], catalog, none)
  else
    let rc := reconcileRelease env hdr stage catalog lab.name
    match rc.2 with
    | .error e => (ev0 :: rc.1, catalog, some e)
    | .ok (rel, catalog') =>
        let pr := processIssues env hdr rel.id (env.issuesOf lab.id)
        (ev0 :: rc.1 ++ pr.1, catalog', pr.2)

/-- The whole `for lab in sub_labels` loop: iterate `processLabel`, stopping
at the first raised error. -/
def runLabels (env : Env) (hdr : String) (stage : Option String)
    (dryRun : Bool) : List Release → List Label →
    List Event × List Release × Option String
  | catalog, [] => ([], catalog, none)
  | catalog, lab :: rest =>
      let p := processLabel env hdr stage dryRun catalog lab
      match p.2.2 with
      | none =>
          let r := runLabels env hdr stage dryRun p.2.1 rest
          (p.1 ++ r.1, r.2.1, r.2.2)
      | some e => (p.1, p.2.1, some e)

/-- How the process ends: normal return, `sys.exit(msg)` (exit status 1),
or an uncaught exception. -/
inductive Outcome where
  | ok
  | exited (msg : String)
  | raised (msg : String)
deriving Repr, DecidableEq

/-- Lines 160-188 of `main`, after configuration resolution: normalize the
API key, enumerate sub-labels (exiting when there are none), load the
release catalog unless `--dry-run`, and run the label loop. -/
def runMain (env : Env) (apiKey : String) (stage : Option String)
    (dryRun : Bool) : List Event × Outcome :=
  let hdr := normalizeApiKey apiKey
  if env.subLabels.isEmpty then
    ([Event.querySubLabels hdr], .exited "No sub-labels under parent label")
  else
    let catEvs := if dryRun then [] else [Event.queryCatalog hdr]
    let catalog := if dryRun then [] else env.catalog0
    let r := runLabels env hdr stage dryRun catalog env.subLabels
    (Event.querySubLabels hdr :: catEvs ++ r.1,
      match r.2.2 with | none => .ok | some e => .raised e)

/-- The command-line flags; `some v` means the flag was passed with value
`v`, `none` that it was omitted. -/
structure Flags where
  apiKey : Option String
  parentLabelId : Option String
  pipelineId : Option String
  stageId : Option String
  dryRun : Bool
deriving Repr, DecidableEq

/-- The paste-in constants at the top of the file (`API_KEY`,
`PARENT_LABEL_ID`, `RELEASE_PIPELINE_ID`, `RELEASE_STAGE_ID`); all `""` in
the shipped file. -/
structure FileDefaults where
  apiKey : String
  parentLabelId : String
  pipelineId : String
  stageId : String
deriving Repr, DecidableEq

/-- The relevant environment variables; `some v` means set to `v`. -/
structure OsEnv where
  linearApiKey : Option String
  parentLabelId : Option String
  releasePipelineId : Option String
  releaseStageId : Option String
deriving Repr, DecidableEq

/-- The argparse `default=` expression of lines 147-150:
`FILE_CONSTANT or os.environ.get(VAR)` — the in-file constant when truthy
(non-empty), else the environment variable. -/
def argDefault (fileDefault : String) (envVar : Option String) : Option String :=
  if fileDefault = "" then envVar else some fileDefault

/-- The value argparse stores for one option: the flag when passed, else the
`default=` expression. -/
def resolveArg (flag : Option String) (fileDefault : String)
    (envVar : Option String) : Option String :=
  match flag with
  | some f => some f
  | none => argDefault fileDefault envVar

/-- Lines 154-156: `args.X or sys.exit(msg)` — keep the resolved value when
truthy (present and non-empty), else exit with the descriptive message
(`sys.exit` with a string message exits with status 1). -/
def resolveRequired (flag : Option String) (fileDefault : String)
    (envVar : Option String) (msg : String) : Except String String :=
  match resolveArg flag fileDefault envVar with
  | some s => if s = "" then .error msg else .ok s
  | none => .error msg

/-- Line 158: `release_stage_id = (args.stage_id or "").strip() or None`. -/
def resolveStage (flag : Option String) (fileDefault : String)
    (envVar : Option String) : Option String :=
  let s := ((resolveArg flag fileDefault envVar).getD "").trim
  if s = "" then none else some s

/-- All of `main`: resolve the three required values in order (each missing
one exits immediately, before any network call), resolve the optional stage
id, then run the migration. -/
def runScript (flags : Flags) (fd : FileDefaults) (osenv : OsEnv)
    (env : Env) : List Event × Outcome :=
  match resolveRequired flags.apiKey fd.apiKey osenv.linearApiKey
      "Missing API key. Paste it at the top of this file, or set LINEAR_API_KEY." with
  | .error m => ([], .exited m)
  | .ok apiKey =>
    match resolveRequired flags.parentLabelId fd.parentLabelId osenv.parentLabelId
        "Missing parent label ID. Paste it at the top of this file, or set PARENT_LABEL_ID." with
    | .error m => ([], .exited m)
    | .ok _ =>
      match resolveRequired flags.pipelineId fd.pipelineId osenv.releasePipelineId
          "Missing pipeline ID. Paste it at the top of this file, or set RELEASE_PIPELINE_ID." with
      | .error m => ([], .exited m)
      | .ok _ =>
          runMain env apiKey
            (resolveStage flags.stageId fd.stageId osenv.releaseStageId)
            flags.dryRun

/-! ## Helper lemmas -/

/-- Flattening pages of equal size multiplies the size by the page count. -/
theorem nodes_flatten_length {α : Type} (n : Nat) :
    ∀ l : List (Page α), (∀ p ∈ l, p.nodes.length = n) →
      ((l.map Page.nodes).flatten).length = l.length * n
  | [], _ => by simp
  | p :: rest, h => by
      have hr := nodes_flatten_length n rest (fun q hq => h q (by simp [hq]))
      have hp := h p (by simp)
      simp [hr, hp, Nat.succ_mul, Nat.add_comm]

/-- `find?` returns the first match: the returned element satisfies the
predicate and everything before it refutes it. -/
theorem find?_first_match {α : Type} (p : α → Bool) :
    ∀ (l : List α) (x : α), l.find? p = some x →
      p x = true ∧ ∃ l1 l2, l = l1 ++ x :: l2 ∧ ∀ q ∈ l1, p q = false
  | [], x => by simp
  | a :: l, x => by
      intro h
      by_cases ha : p a = true
      · rw [List.find?_cons_of_pos _ ha] at h
        cases h
        exact ⟨ha, [], l, rfl, by simp⟩
      · rw [List.find?_cons_of_neg _ (by simpa using ha)] at h
        obtain ⟨hx, l1, l2, rfl, hall⟩ := find?_first_match p l x h
        refine ⟨hx, a :: l1, l2, rfl, ?_⟩
        intro q hq
        rcases List.mem_cons.mp hq with h' | h'
        · subst h'; simpa using ha
        · exact hall q h'

/-! ## C3: pagination completeness -/

/-- **C3.** Pagination is complete and order-preserving: when the remote
answers with a sequence of pages all but the last of which report
`hasNextPage = true` and the last of which reports `false`, `paginate`
returns exactly the concatenation of the pages' node lists in order, and
with `n` nodes per page that is `(number of pages) * n` nodes.  The page
size never appears: it only determines which pages the remote serves. -/
theorem claim_C3_pagination_complete {α : Type} (front : List (Page α))
    (last : Page α) (n : Nat)
    (hmid : ∀ p ∈ front, p.pageInfo.hasNextPage = true)
    (hlast : last.pageInfo.hasNextPage = false)
    (hsize : ∀ p ∈ front ++ [last], p.nodes.length = n) :
    paginate (front ++ [last]) = ((front ++ [last]).map Page.nodes).flatten ∧
    (paginate (front ++ [last])).length = (front.length + 1) * n := by
  have h := paginate_front_last front last hmid hlast
  refine ⟨h, ?_⟩
  rw [h]
  have hl := nodes_flatten_length n (front ++ [last]) hsize
  simpa using hl

/-- Concrete instantiation of `claim_C3_pagination_complete`: two pages of
two nodes each. -/
theorem claim_C3_witness :
    paginate ([Page.mk [1, 2] (PageInfo.mk true (some "c1"))] ++
        [Page.mk [3, 4] (PageInfo.mk false none)]) =
      ((([Page.mk [1, 2] (PageInfo.mk true (some "c1"))] ++
        [Page.mk [3, 4] (PageInfo.mk false none)]).map Page.nodes).flatten) ∧
    (paginate ([Page.mk [1, 2] (PageInfo.mk true (some "c1"))] ++
        [Page.mk [3, 4] (PageInfo.mk false none)])).length =
      ([Page.mk ([1, 2] : List Nat) (PageInfo.mk true (some "c1"))].length + 1) * 2 :=
  claim_C3_pagination_complete _ _ 2 (by decide) (by decide) (by decide)

/-! ## C7: empty parent label -/

/-- **C7.** When the fully paginated sub-label list is empty, the run stops
with the distinct user-facing no-sub-labels message right after the
sub-label query: the trace is exactly that one query, so the release-catalog
query and both mutations are never invoked. -/
theorem claim_C7_empty_parent (env : Env) (apiKey : String)
    (stage : Option String) (dryRun : Bool) (h : env.subLabels = []) :
    runMain env apiKey stage dryRun =
      ([Event.querySubLabels (normalizeApiKey apiKey)],
        .exited "No sub-labels under parent label") := by
  simp [runMain, h]

/-- An oracle with no sub-labels, for instantiating `claim_C7_empty_parent`. -/
def envNoLabels : Env where
  pipelineId := "pipe"
  subLabels := []
  catalog0 := []
  issuesOf := fun _ => []
  createResp := fun _ _ _ => .transportFail "unused"
  assocResp := fun _ _ => .transportFail "unused"

/-- Concrete instantiation of `claim_C7_empty_parent`. -/
theorem claim_C7_witness :
    runMain envNoLabels "k" none false =
      ([Event.querySubLabels (normalizeApiKey "k")],
        .exited "No sub-labels under parent label") :=
  claim_C7_empty_parent envNoLabels "k" none false rfl

/-! ## C2: release matching precedence -/

/-- **C2, counterexample.**  The claim says a release matching only by name
is chosen only when no catalog release has `version == N`.  With the catalog
`[{idA, name N, version X}, {idB, name Y, version N}]` the loop picks the
first release (a name-only match) although the second one's version equals
`N`: the scan is a single pass over `version == N or name == N`, not
version-first. -/
theorem claim_C2_counterexample :
    (∃ r ∈ [Release.mk "idA" "N" (some "X"), Release.mk "idB" "Y" (some "N")],
        r.version = some "N") ∧
    findRelease [Release.mk "idA" "N" (some "X"), Release.mk "idB" "Y" (some "N")]
        "N" = some (Release.mk "idA" "N" (some "X")) ∧
    (Release.mk "idA" "N" (some "X")).version ≠ some "N" := by decide

/-- **C2, amended.**  The release chosen for name `N` is the first release in
catalog order satisfying `version == N or name == N` (one combined test, no
version-over-name precedence): a returned release matches by version or by
name and every catalog release before it matches by neither; when `none` is
returned no catalog release matches by either field. -/
theorem claim_C2_amended_first_match (catalog : List Release) (n : String) :
    (∀ r, findRelease catalog n = some r →
        (r.version = some n ∨ r.name = n) ∧
        ∃ l1 l2, catalog = l1 ++ r :: l2 ∧
          ∀ q ∈ l1, q.version ≠ some n ∧ q.name ≠ n) ∧
    (findRelease catalog n = none →
        ∀ r ∈ catalog, r.version ≠ some n ∧ r.name ≠ n) := by
  constructor
  · intro r hr
    obtain ⟨hp, l1, l2, heq, hall⟩ := find?_first_match (matchesRelease n) catalog r hr
    refine ⟨by simpa [matchesRelease] using hp, l1, l2, heq, ?_⟩
    intro q hq
    have hf := hall q hq
    simpa [matchesRelease] using hf
  · intro h r hr
    have hf := List.find?_eq_none.mp h r hr
    simpa [matchesRelease, not_or] using hf

/-- Concrete instantiation of `claim_C2_amended_first_match`: on the
counterexample catalog the chosen release is the name-match in head
position. -/
theorem claim_C2_amended_witness :
    ((Release.mk "idA" "N" (some "X")).version = some "N" ∨
      (Release.mk "idA" "N" (some "X")).name = "N") ∧
    ∃ l1 l2,
      [Release.mk "idA" "N" (some "X"), Release.mk "idB" "Y" (some "N")] =
        l1 ++ Release.mk "idA" "N" (some "X") :: l2 ∧
      ∀ q ∈ l1, q.version ≠ some "N" ∧ q.name ≠ "N" :=
  (claim_C2_amended_first_match
      [Release.mk "idA" "N" (some "X"), Release.mk "idB" "Y" (some "N")] "N").1
    (Release.mk "idA" "N" (some "X")) (by decide)

/-! ## C8: configuration resolution precedence -/

/-- Is a required option unobtainable (absent everywhere, or resolving to
the empty string, which `args.X or sys.exit(...)` treats as missing)? -/
def missingArg (flag : Option String) (fileDefault : String)
    (envVar : Option String) : Bool :=
  match resolveArg flag fileDefault envVar with
  | none => true
  | some s => s = ""

/-- A missing required option makes `resolveRequired` fail with its
message. -/
theorem resolveRequired_of_missing (flag : Option String) (fileDefault : String)
    (envVar : Option String) (msg : String)
    (h : missingArg flag fileDefault envVar = true) :
    resolveRequired flag fileDefault envVar msg = .error msg := by
  unfold resolveRequired
  unfold missingArg at h
  cases hr : resolveArg flag fileDefault envVar with
  | none => simp
  | some s => rw [hr] at h; simp at h; simp [h]

/-- A successfully resolved option is not missing. -/
theorem not_missing_of_resolveRequired_ok (flag : Option String)
    (fileDefault : String) (envVar : Option String) (msg s : String)
    (h : resolveRequired flag fileDefault envVar msg = .ok s) :
    missingArg flag fileDefault envVar = false := by
  unfold resolveRequired at h
  unfold missingArg
  cases hr : resolveArg flag fileDefault envVar with
  | none => rw [hr] at h; simp at h
  | some t =>
      rw [hr] at h
      by_cases ht : t = ""
      · simp [ht] at h
      · simp [ht]

/-- **C8, counterexample.**  The claim gives the environment variable
precedence over the in-file default.  The argparse defaults are
`FILE_CONSTANT or os.environ.get(VAR)`, so with flag absent, in-file
default `"filekey"` and environment value `"envkey"`, the value used is
`"filekey"`, not `"envkey"`. -/
theorem claim_C8_counterexample :
    resolveRequired none "filekey" (some "envkey") "m" = .ok "filekey" ∧
    resolveRequired none "filekey" (some "envkey") "m" ≠ .ok "envkey" := by
  constructor
  · rfl
  · intro h
    simp [resolveRequired, resolveArg, argDefault] at h

/-- **C8, amended.**  For each required value the precedence is: the
command-line flag if given, otherwise the non-empty in-file default,
otherwise the environment variable; a flag value or resolved value equal to
`""` counts as missing.  When a required value is missing the program calls
`sys.exit` with a descriptive message (exit status 1, hence non-zero) and
the trace of remote calls is empty. -/
theorem claim_C8_amended_precedence :
    (∀ (fileD : String) (envv : Option String) (msg f : String), f ≠ "" →
        resolveRequired (some f) fileD envv msg = .ok f) ∧
    (∀ (envv : Option String) (msg fileD : String), fileD ≠ "" →
        resolveRequired none fileD envv msg = .ok fileD) ∧
    (∀ (msg e : String), e ≠ "" →
        resolveRequired none "" (some e) msg = .ok e) ∧
    (∀ msg : String, resolveRequired none "" none msg = .error msg) ∧
    (∀ (flags : Flags) (fd : FileDefaults) (osenv : OsEnv) (env : Env),
        (missingArg flags.apiKey fd.apiKey osenv.linearApiKey ||
         missingArg flags.parentLabelId fd.parentLabelId osenv.parentLabelId ||
         missingArg flags.pipelineId fd.pipelineId osenv.releasePipelineId) = true →
        (runScript flags fd osenv env).1 = [] ∧
        ∃ m, (runScript flags fd osenv env).2 = .exited m) := by
  refine ⟨?_, ?_, ?_, ?_, ?_⟩
  · intro fileD envv msg f hf
    simp [resolveRequired, resolveArg, hf]
  · intro envv msg fileD hd
    simp [resolveRequired, resolveArg, argDefault, hd]
  · intro msg e he
    simp [resolveRequired, resolveArg, argDefault, he]
  · intro msg
    simp [resolveRequired, resolveArg, argDefault]
  · intro flags fd osenv env hmiss
    unfold runScript
    cases h1 : resolveRequired flags.apiKey fd.apiKey osenv.linearApiKey
        "Missing API key. Paste it at the top of this file, or set LINEAR_API_KEY." with
    | error m => simp
    | ok apiKey =>
        have m1 := not_missing_of_resolveRequired_ok _ _ _ _ _ h1
        rw [m1] at hmiss
        simp only [Bool.false_or] at hmiss
        cases h2 : resolveRequired flags.parentLabelId fd.parentLabelId osenv.parentLabelId
            "Missing parent label ID. Paste it at the top of this file, or set PARENT_LABEL_ID." with
        | error m => simp
        | ok pl =>
            have m2 := not_missing_of_resolveRequired_ok _ _ _ _ _ h2
            rw [m2] at hmiss
            simp only [Bool.false_or] at hmiss
            have h3 := resolveRequired_of_missing flags.pipelineId fd.pipelineId
              osenv.releasePipelineId
              "Missing pipeline ID. Paste it at the top of this file, or set RELEASE_PIPELINE_ID."
              hmiss
            simp [h3]

/-- Concrete instantiation of `claim_C8_amended_precedence`: with only the
environment variable set, its value is used. -/
theorem claim_C8_amended_witness :
    resolveRequired none "" (some "envkey") "m" = .ok "envkey" :=
  claim_C8_amended_precedence.2.2.1 "m" "envkey" (by decide)

/-! ## C4: dry-run purity -/

/-- In dry-run mode the label loop only queries each label's issues: no
mutation, no catalog change, no error. -/
theorem runLabels_dryRun (env : Env) (hdr : String) (stage : Option String) :
    ∀ (labs : List Label) (catalog : List Release),
      runLabels env hdr stage true catalog labs =
        (labs.map fun lab => Event.queryIssues hdr lab.id, catalog, none)
  | [], catalog => rfl
  | lab :: rest, catalog => by
      simp [runLabels, processLabel, runLabels_dryRun env hdr stage rest catalog]

/-- The dry-run trace of `main` after configuration: the sub-label query
followed by one issues query per sub-label. -/
theorem runMain_dryRun_events (env : Env) (k : String) (stage : Option String) :
    (runMain env k stage true).1 =
      Event.querySubLabels (normalizeApiKey k) ::
        env.subLabels.map fun lab => Event.queryIssues (normalizeApiKey k) lab.id := by
  by_cases h : env.subLabels.isEmpty
  · have he : env.subLabels = [] := by simpa using h
    simp [runMain, he]
  · simp [runMain, h, runLabels_dryRun]

/-- **C4.** Dry-run purity: with the `--dry-run` flag set, whatever the
oracle answers and however configuration resolves, the run performs no
`releaseCreate` call, no `issueToReleaseCreate` call, and never runs the
release-catalog query. -/
theorem claim_C4_dry_run_purity (a p pi st : Option String) (fd : FileDefaults)
    (osenv : OsEnv) (env : Env) :
    ((runScript (Flags.mk a p pi st true) fd osenv env).1.filter
      fun e => e.isCreate || e.isAssoc || e.isCatalogQuery) = [] := by
  unfold runScript
  cases h1 : resolveRequired a fd.apiKey osenv.linearApiKey
      "Missing API key. Paste it at the top of this file, or set LINEAR_API_KEY." with
  | error m => simp
  | ok apiKey =>
      cases h2 : resolveRequired p fd.parentLabelId osenv.parentLabelId
          "Missing parent label ID. Paste it at the top of this file, or set PARENT_LABEL_ID." with
      | error m => simp
      | ok pl =>
          cases h3 : resolveRequired pi fd.pipelineId osenv.releasePipelineId
              "Missing pipeline ID. Paste it at the top of this file, or set RELEASE_PIPELINE_ID." with
          | error m => simp
          | ok pid =>
              rw [runMain_dryRun_events]
              simp [List.filter_eq_nil_iff, Event.isCreate, Event.isAssoc,
                Event.isCatalogQuery]

/-! ## C10: API-key normalization -/

/-- Every call made by the association loop is an `issueToReleaseCreate`
call with the run's header and the resolved release id. -/
theorem processIssues_event_shape (env : Env) (hdr rid : String) :
    ∀ (is : List String) (ev : Event), ev ∈ (processIssues env hdr rid is).1 →
      ∃ y, ev = Event.assocIssue hdr y rid
  | [], ev => by simp [processIssues]
  | i :: rest, ev => by
      unfold processIssues
      cases h : doAssoc env i rid with
      | ok u =>
          simp only [h]
          intro hm
          rcases List.mem_cons.mp hm with h' | h'
          · exact ⟨i, h'⟩
          · exact processIssues_event_shape env hdr rid rest ev h'
      | error e =>
          simp only [h]
          intro hm
          rcases List.mem_cons.mp hm with h' | h'
          · exact ⟨i, h'⟩
          · simp at h'

/-- The only call release resolution can make is the `releaseCreate`
mutation for the sub-label's name, with the run's header. -/
theorem reconcileRelease_event_shape (env : Env) (hdr : String)
    (stage : Option String) (catalog : List Release) (name : String)
    (ev : Event) (h : ev ∈ (reconcileRelease env hdr stage catalog name).1) :
    ev = Event.createRelease hdr env.pipelineId name (stageField stage) (some name) := by
  unfold reconcileRelease at h
  cases hf : findRelease catalog name with
  | some r => rw [hf] at h; simp at h
  | none =>
      rw [hf] at h
      cases hc : doCreate env name stage (some name) with
      | ok r => rw [hc] at h; simpa using h
      | error e => rw [hc] at h; simpa using h

/-- Every call made while processing one sub-label carries the run's
header. -/
theorem processLabel_event_auth (env : Env) (hdr : String)
    (stage : Option String) (dryRun : Bool) (catalog : List Release)
    (lab : Label) (ev : Event)
    (h : ev ∈ (processLabel env hdr stage dryRun catalog lab).1) :
    ev.auth = hdr := by
  unfold processLabel at h
  cases dryRun with
  | true =>
      simp at h
      subst h; rfl
  | false =>
      simp only [Bool.false_eq_true, if_false] at h
      cases hr : (reconcileRelease env hdr stage catalog lab.name).2 with
      | error e =>
          simp only [hr] at h
          rcases List.mem_cons.mp h with h' | h'
          · subst h'; rfl
          · rw [reconcileRelease_event_shape env hdr stage catalog lab.name ev h']
            rfl
      | ok pr =>
          rcases pr with ⟨rel, catalog'⟩
          simp only [hr] at h
          rcases List.mem_cons.mp h with h' | h'
          · subst h'; rfl
          · rcases List.mem_append.mp h' with h'' | h''
            · rw [reconcileRelease_event_shape env hdr stage catalog lab.name ev h'']
              rfl
            · obtain ⟨y, hy⟩ :=
                processIssues_event_shape env hdr rel.id (env.issuesOf lab.id) ev h''
              subst hy; rfl

/-- Every call made by the label loop carries the run's header. -/
theorem runLabels_event_auth (env : Env) (hdr : String) (stage : Option String)
    (dryRun : Bool) :
    ∀ (labs : List Label) (catalog : List Release) (ev : Event),
      ev ∈ (runLabels env hdr stage dryRun catalog labs).1 → ev.auth = hdr
  | [], catalog, ev => by simp [runLabels]
  | lab :: rest, catalog, ev => by
      unfold runLabels
      cases hp : (processLabel env hdr stage dryRun catalog lab).2.2 with
      | none =>
          simp only [hp]
          intro h
          rcases List.mem_append.mp h with h' | h'
          · exact processLabel_event_auth env hdr stage dryRun catalog lab ev h'
          · exact runLabels_event_auth env hdr stage dryRun rest _ ev h'
      | some e =>
          simp only [hp]
          intro h
          exact processLabel_event_auth env hdr stage dryRun catalog lab ev h

/-- Every remote call of the whole run carries the normalized key as its
`Authorization` header. -/
theorem runMain_event_auth (env : Env) (k : String) (stage : Option String)
    (dryRun : Bool) (ev : Event) (h : ev ∈ (runMain env k stage dryRun).1) :
    ev.auth = normalizeApiKey k := by
  unfold runMain at h
  by_cases he : env.subLabels.isEmpty
  · simp [he] at h
    subst h; rfl
  · simp only [he, if_false, Bool.false_eq_true] at h
    cases dryRun with
    | true =>
        simp only [if_true] at h
        rcases List.mem_cons.mp h with h' | h'
        · subst h'; rfl
        · rcases List.mem_append.mp h' with h'' | h''
          · simp at h''
          · exact runLabels_event_auth env _ stage true env.subLabels _ ev h''
    | false =>
        simp only [Bool.false_eq_true, if_false] at h
        rcases List.mem_cons.mp h with h' | h'
        · subst h'; rfl
        · rcases List.mem_append.mp h' with h'' | h''
          · rcases List.mem_singleton.mp h'' with rfl; rfl
          · exact runLabels_event_auth env _ stage false env.subLabels _ ev h''

/-- **C10.** API-key normalization: a key starting with `lin_api_` or
`Bearer ` is used verbatim, any other key gets `Bearer ` prepended exactly
once, and every remote call of the run is sent with that one normalized
value as its `Authorization` header. -/
theorem claim_C10_api_key_normalization (k : String) (env : Env)
    (stage : Option String) (dryRun : Bool) :
    ((pyStartswith k "lin_api_" || pyStartswith k "Bearer ") = true →
        normalizeApiKey k = k) ∧
    ((pyStartswith k "lin_api_" || pyStartswith k "Bearer ") = false →
        normalizeApiKey k = "Bearer " ++ k) ∧
    ((runMain env k stage dryRun).1.all
      fun ev => ev.auth == normalizeApiKey k) = true := by
  refine ⟨fun h => by simp [normalizeApiKey, h],
    fun h => by simp [normalizeApiKey, h], ?_⟩
  rw [List.all_eq_true]
  intro ev hev
  have ha := runMain_event_auth env k stage dryRun ev hev
  simp [ha]

/-- Concrete instantiation of `claim_C10_api_key_normalization`: a
`lin_api_` key is kept, a bare key gets the prefix. -/
theorem claim_C10_witness :
    normalizeApiKey "lin_api_abc" = "lin_api_abc" ∧
    normalizeApiKey "secret" = "Bearer " ++ "secret" ∧
    ((runMain envNoLabels "secret" none false).1.all
      fun ev => ev.auth == normalizeApiKey "secret") = true :=
  ⟨(claim_C10_api_key_normalization "lin_api_abc" envNoLabels none false).1 (by decide),
   (claim_C10_api_key_normalization "secret" envNoLabels none false).2.1 (by decide),
   (claim_C10_api_key_normalization "secret" envNoLabels none false).2.2⟩

/-! ## C5: fail-fast association -/

/-- When the associations for `done` succeed and the one for `x` fails, the
association loop attempts exactly `done ++ [x]` and stops with the error. -/
theorem processIssues_fail (env : Env) (hdr rid x e : String)
    (later : List String) (hfail : doAssoc env x rid = .error e) :
    ∀ done : List String, (∀ y ∈ done, doAssoc env y rid = .ok ()) →
      processIssues env hdr rid (done ++ x :: later) =
        ((done ++ [x]).map fun y => Event.assocIssue hdr y rid, some e)
  | [], _ => by simp [processIssues, hfail]
  | d :: ds, h => by
      have hd : doAssoc env d rid = .ok () := h d (by simp)
      have ih := processIssues_fail env hdr rid x e later hfail ds
        (fun y hy => h y (by simp [hy]))
      simp [processIssues, hd, ih]

/-- **C5.** Fail-fast association: if, while processing sub-label `lab`
(resolved to release `rel`), the associate call for issue `x` fails after
those for `done` succeeded, then the attempted associations are exactly
`done ++ [x]` — nothing after `x` in that label's list — no later sub-label
is processed (`rest` contributes no events), and the loop ends surfacing
that error. -/
theorem claim_C5_fail_fast_association (env : Env) (hdr : String)
    (stage : Option String) (catalog : List Release) (lab : Label)
    (rest : List Label) (cevs : List Event) (rel : Release)
    (cat' : List Release) (done : List String) (x e : String)
    (later : List String)
    (hres : reconcileRelease env hdr stage catalog lab.name = (cevs, .ok (rel, cat')))
    (hissues : env.issuesOf lab.id = done ++ x :: later)
    (hok : ∀ y ∈ done, doAssoc env y rel.id = .ok ())
    (hfail : doAssoc env x rel.id = .error e) :
    runLabels env hdr stage false catalog (lab :: rest) =
      (Event.queryIssues hdr lab.id :: cevs ++
        ((done ++ [x]).map fun y => Event.assocIssue hdr y rel.id),
       cat', some e) := by
  have hpi := processIssues_fail env hdr rel.id x e later hfail done hok
  have hpl : processLabel env hdr stage false catalog lab =
      (Event.queryIssues hdr lab.id :: cevs ++
        ((done ++ [x]).map fun y => Event.assocIssue hdr y rel.id),
       cat', some e) := by
    unfold processLabel
    simp [hres, hissues, hpi]
  simp [runLabels, hpl]

/-- The oracle for the `claim_C5_fail_fast_association` witness: one
sub-label, a catalog release matching it, three issues, the second
association reporting `success=false`. -/
def envAssocFail : Env where
  pipelineId := "pipe"
  subLabels := [Label.mk "l1" "v1"]
  catalog0 := [Release.mk "r1" "v1" (some "v1")]
  issuesOf := fun _ => ["i1", "i2", "i3"]
  createResp := fun _ _ _ => .transportFail "unused"
  assocResp := fun i _ =>
    if i = "i2" then .gqlData (some false) "RESP" else .gqlData (some true) "OK"

/-- Concrete instantiation of `claim_C5_fail_fast_association`: the third
issue is never attempted and the run stops with the association error. -/
theorem claim_C5_witness :
    runLabels envAssocFail "H" none false [Release.mk "r1" "v1" (some "v1")]
        [Label.mk "l1" "v1"] =
      ([Event.queryIssues "H" "l1",
        Event.assocIssue "H" "i1" "r1", Event.assocIssue "H" "i2" "r1"],
       [Release.mk "r1" "v1" (some "v1")],
       some ("issueToReleaseCreate failed: " ++ "RESP")) := by
  have h := claim_C5_fail_fast_association envAssocFail "H" none
    [Release.mk "r1" "v1" (some "v1")] (Label.mk "l1" "v1") [] []
    (Release.mk "r1" "v1" (some "v1")) [Release.mk "r1" "v1" (some "v1")]
    ["i1"] "i2" ("issueToReleaseCreate failed: " ++ "RESP") ["i3"]
    rfl rfl
    (by intro y hy; rcases List.mem_singleton.mp hy with rfl; rfl)
    rfl
  simpa using h

/-! ## C9: catalog atomicity -/

/-- Processing one sub-label only ever appends to the catalog, and only
releases that the remote returned from a successful `releaseCreate`. -/
theorem processLabel_catalog_growth (env : Env) (hdr : String)
    (stage : Option String) (catalog : List Release) (lab : Label) :
    ∃ tail, (processLabel env hdr stage false catalog lab).2.1 = catalog ++ tail ∧
      ∀ r ∈ tail, ∃ nm, doCreate env nm stage (some nm) = .ok r := by
  unfold processLabel reconcileRelease
  cases hf : findRelease catalog lab.name with
  | some r =>
      refine ⟨[], ?_, by simp⟩
      simp [hf]
  | none =>
      cases hc : doCreate env lab.name stage (some lab.name) with
      | ok r =>
          refine ⟨[r], ?_, ?_⟩
          · simp [hf, hc]
          · intro q hq
            rcases List.mem_singleton.mp hq with rfl
            exact ⟨lab.name, hc⟩
      | error e =>
          refine ⟨[], ?_, by simp⟩
          simp [hf, hc]

/-- The label loop only ever appends remote-returned releases to the
catalog. -/
theorem runLabels_catalog_growth (env : Env) (hdr : String)
    (stage : Option String) :
    ∀ (labs : List Label) (catalog : List Release),
      ∃ created, (runLabels env hdr stage false catalog labs).2.1 = catalog ++ created ∧
        ∀ r ∈ created, ∃ nm, doCreate env nm stage (some nm) = .ok r
  | [], catalog => ⟨[], by simp [runLabels], by simp⟩
  | lab :: rest, catalog => by
      obtain ⟨t1, h1, h2⟩ := processLabel_catalog_growth env hdr stage catalog lab
      unfold runLabels
      cases hp : (processLabel env hdr stage false catalog lab).2.2 with
      | none =>
          obtain ⟨t2, h3, h4⟩ := runLabels_catalog_growth env hdr stage rest
            (processLabel env hdr stage false catalog lab).2.1
          refine ⟨t1 ++ t2, ?_, ?_⟩
          · simp only [hp]
            rw [h3, h1, List.append_assoc]
          · intro r hr
            rcases List.mem_append.mp hr with h' | h'
            · exact h2 r h'
            · exact h4 r h'
      | some e =>
          refine ⟨t1, ?_, h2⟩
          simp only [hp]
          exact h1

/-- **C9.** Catalog atomicity: when resolution finds no match and the
`releaseCreate` call raises (transport error, graph error or
`success=false`), the iteration ends with the catalog exactly as it was
before the call; and across any run every catalog entry beyond the initial
load is a release object the remote returned from a successful
`releaseCreate` (hence carries its remote-assigned id). -/
theorem claim_C9_catalog_atomicity (env : Env) (hdr : String)
    (stage : Option String) :
    (∀ (catalog : List Release) (lab : Label) (e : String),
        findRelease catalog lab.name = none →
        doCreate env lab.name stage (some lab.name) = .error e →
        processLabel env hdr stage false catalog lab =
          ([Event.queryIssues hdr lab.id,
            Event.createRelease hdr env.pipelineId lab.name
              (stageField stage) (some lab.name)],
           catalog, some e)) ∧
    (∀ (labs : List Label) (catalog : List Release),
        ∃ created,
          (runLabels env hdr stage false catalog labs).2.1 = catalog ++ created ∧
          ∀ r ∈ created, ∃ nm, doCreate env nm stage (some nm) = .ok r) := by
  constructor
  · intro catalog lab e hf hc
    unfold processLabel reconcileRelease
    simp [hf, hc]
  · intro labs catalog
    exact runLabels_catalog_growth env hdr stage labs catalog

/-- The oracle for the `claim_C9_catalog_atomicity` witness: the
`releaseCreate` response carries no `releaseCreate` payload, so creation
raises. -/
def envCreateFail : Env where
  pipelineId := "pipe"
  subLabels := [Label.mk "l1" "v1"]
  catalog0 := []
  issuesOf := fun _ => []
  createResp := fun _ _ _ => .gqlData none "RAWC"
  assocResp := fun _ _ => .gqlData (some true) "OK"

/-- Concrete instantiation of `claim_C9_catalog_atomicity`: the failed
creation leaves the (empty) catalog untouched. -/
theorem claim_C9_witness :
    processLabel envCreateFail "H" none false [] (Label.mk "l1" "v1") =
      ([Event.queryIssues "H" "l1",
        Event.createRelease "H" "pipe" "v1" (stageField none) (some "v1")],
       [], some ("releaseCreate failed: " ++ "RAWC")) ∧
    ∃ created,
      (runLabels envCreateFail "H" none false [] [Label.mk "l1" "v1"]).2.1 =
        [] ++ created ∧
      ∀ r ∈ created, ∃ nm, doCreate envCreateFail nm none (some nm) = .ok r :=
  ⟨(claim_C9_catalog_atomicity envCreateFail "H" none).1 [] (Label.mk "l1" "v1")
      ("releaseCreate failed: " ++ "RAWC") rfl rfl,
   (claim_C9_catalog_atomicity envCreateFail "H" none).2 [Label.mk "l1" "v1"] []⟩

/-! ## C6: mutation failure contract -/

/-- **C6.** Mutation failure contract over a data response: `create_release`
raises exactly when the response lacks a truthy `success` under
`releaseCreate` (key absent or `success=false`), `add_issue_to_release`
raises exactly when `issueToReleaseCreate.success` is not `true`; every
raised message carries the raw response as a suffix; on success
`create_release` returns exactly the release the remote reported. -/
theorem claim_C6_mutation_failure_contract (d : Option ReleaseCreatePayload)
    (s : Option Bool) (rawC rawA : String) :
    ((∃ e, create_release d rawC = .error e) ↔
      ¬ ∃ p, d = some p ∧ p.success = true) ∧
    (∀ e, create_release d rawC = .error e → ∃ t, e = t ++ rawC) ∧
    (∀ p, d = some p → p.success = true → create_release d rawC = .ok p.release) ∧
    ((∃ e, add_issue_to_release s rawA = .error e) ↔ s ≠ some true) ∧
    (∀ e, add_issue_to_release s rawA = .error e → ∃ t, e = t ++ rawA) ∧
    (s = some true → add_issue_to_release s rawA = .ok ()) := by
  refine ⟨?_, ?_, ?_, ?_, ?_, ?_⟩
  · cases d with
    | none => simp [create_release]
    | some p =>
        cases hs : p.success with
        | true => simp [create_release, hs]
        | false => simp [create_release, hs]
  · intro e he
    cases d with
    | none =>
        refine ⟨"releaseCreate failed: ", ?_⟩
        simpa [create_release] using he.symm
    | some p =>
        cases hs : p.success with
        | true => simp [create_release, hs] at he
        | false =>
            refine ⟨"releaseCreate failed: ", ?_⟩
            rw [create_release, hs] at he
            simpa using he.symm
  · intro p hp hs
    subst hp
    simp [create_release, hs]
  · cases s with
    | none => simp [add_issue_to_release]
    | some b => cases b <;> simp [add_issue_to_release]
  · intro e he
    cases s with
    | none =>
        refine ⟨"issueToReleaseCreate failed: ", ?_⟩
        simpa [add_issue_to_release] using he.symm
    | some b =>
        cases b with
        | true => simp [add_issue_to_release] at he
        | false =>
            refine ⟨"issueToReleaseCreate failed: ", ?_⟩
            simpa [add_issue_to_release] using he.symm
  · intro hs
    subst hs
    rfl

/-- Concrete instantiation of `claim_C6_mutation_failure_contract`: a
successful creation returns the remote's release, a successful association
returns unit. -/
theorem claim_C6_witness :
    create_release (some (ReleaseCreatePayload.mk true
        (Release.mk "r1" "v1" (some "v1")))) "RAW" =
      .ok (Release.mk "r1" "v1" (some "v1")) ∧
    add_issue_to_release (some true) "RAW" = .ok () :=
  ⟨(claim_C6_mutation_failure_contract
      (some (ReleaseCreatePayload.mk true (Release.mk "r1" "v1" (some "v1"))))
      (some true) "RAW" "RAW").2.2.1
      (ReleaseCreatePayload.mk true (Release.mk "r1" "v1" (some "v1"))) rfl rfl,
   (claim_C6_mutation_failure_contract
      (some (ReleaseCreatePayload.mk true (Release.mk "r1" "v1" (some "v1"))))
      (some true) "RAW" "RAW").2.2.2.2.2 rfl⟩

/-! ## C1: idempotent release matching -/

@[simp] theorem createNames_nil : createNames [] = [] := rfl

@[simp] theorem createNames_cons_subq (a : String) (l : List Event) :
    createNames (Event.querySubLabels a :: l) = createNames l := rfl

@[simp] theorem createNames_cons_catq (a : String) (l : List Event) :
    createNames (Event.queryCatalog a :: l) = createNames l := rfl

@[simp] theorem createNames_cons_issq (a i : String) (l : List Event) :
    createNames (Event.queryIssues a i :: l) = createNames l := rfl

@[simp] theorem createNames_cons_create (a p n : String) (st v : Option String)
    (l : List Event) :
    createNames (Event.createRelease a p n st v :: l) = n :: createNames l := rfl

@[simp] theorem createNames_cons_assoc (a i r : String) (l : List Event) :
    createNames (Event.assocIssue a i r :: l) = createNames l := rfl

@[simp] theorem createNames_append (l1 l2 : List Event) :
    createNames (l1 ++ l2) = createNames l1 ++ createNames l2 :=
  List.filterMap_append l1 l2 Event.createName

@[simp] theorem assocTargets_nil : assocTargets [] = [] := rfl

@[simp] theorem assocTargets_cons_issq (a i : String) (l : List Event) :
    assocTargets (Event.queryIssues a i :: l) = assocTargets l := rfl

@[simp] theorem assocTargets_cons_create (a p n : String) (st v : Option String)
    (l : List Event) :
    assocTargets (Event.createRelease a p n st v :: l) = assocTargets l := rfl

@[simp] theorem assocTargets_cons_assoc (a i r : String) (l : List Event) :
    assocTargets (Event.assocIssue a i r :: l) = r :: assocTargets l := rfl

/-- The association loop never issues a `releaseCreate` call. -/
theorem createNames_processIssues (env : Env) (hdr rid : String) :
    ∀ is : List String, createNames (processIssues env hdr rid is).1 = []
  | [] => rfl
  | i :: rest => by
      unfold processIssues
      cases h : doAssoc env i rid with
      | ok u => simp [h, createNames_processIssues env hdr rid rest]
      | error e => simp [h]

/-- Every association the loop attempts targets the resolved release id. -/
theorem assocTargets_processIssues (env : Env) (hdr rid : String) :
    ∀ is : List String,
      ((assocTargets (processIssues env hdr rid is).1).all fun t => t == rid) = true
  | [] => rfl
  | i :: rest => by
      unfold processIssues
      cases h : doAssoc env i rid with
      | ok u => simp [h, assocTargets_processIssues env hdr rid rest]
      | error e => simp [h]

/-- A match in the front part survives appending to the catalog. -/
theorem find?_append_of_some {α : Type} (p : α → Bool) (l1 l2 : List α) (x : α)
    (h : l1.find? p = some x) : (l1 ++ l2).find? p = some x := by
  rw [List.find?_append, h]
  rfl

/-- With no match in the front part, searching the appended catalog searches
the extension. -/
theorem find?_append_of_none {α : Type} (p : α → Bool) (l1 l2 : List α)
    (h : l1.find? p = none) : (l1 ++ l2).find? p = l2.find? p := by
  rw [List.find?_append, h]
  rfl

/-- `processLabel` when the catalog already has a match: no mutation beyond
the associations, catalog unchanged. -/
theorem processLabel_found (env : Env) (hdr : String) (stage : Option String)
    (catalog : List Release) (lab : Label) (r : Release)
    (hf : findRelease catalog lab.name = some r) :
    processLabel env hdr stage false catalog lab =
      (Event.queryIssues hdr lab.id ::
        (processIssues env hdr r.id (env.issuesOf lab.id)).1,
       catalog, (processIssues env hdr r.id (env.issuesOf lab.id)).2) := by
  unfold processLabel reconcileRelease
  simp [hf]

/-- `processLabel` when there is no match and creation succeeds: one
`releaseCreate` call, the returned release appended, associations against
its id. -/
theorem processLabel_create_ok (env : Env) (hdr : String) (stage : Option String)
    (catalog : List Release) (lab : Label) (r : Release)
    (hf : findRelease catalog lab.name = none)
    (hc : doCreate env lab.name stage (some lab.name) = .ok r) :
    processLabel env hdr stage false catalog lab =
      (Event.queryIssues hdr lab.id ::
        Event.createRelease hdr env.pipelineId lab.name (stageField stage) (some lab.name) ::
        (processIssues env hdr r.id (env.issuesOf lab.id)).1,
       catalog ++ [r], (processIssues env hdr r.id (env.issuesOf lab.id)).2) := by
  unfold processLabel reconcileRelease
  simp [hf, hc]

/-- `processLabel` when there is no match and creation raises: the
iteration stops with the error and the catalog untouched. -/
theorem processLabel_create_err (env : Env) (hdr : String) (stage : Option String)
    (catalog : List Release) (lab : Label) (e : String)
    (hf : findRelease catalog lab.name = none)
    (hc : doCreate env lab.name stage (some lab.name) = .error e) :
    processLabel env hdr stage false catalog lab =
      ([Event.queryIssues hdr lab.id,
        Event.createRelease hdr env.pipelineId lab.name (stageField stage) (some lab.name)],
       catalog, some e) := by
  unfold processLabel reconcileRelease
  simp [hf, hc]

/-- Unrolling `runLabels` over a label whose processing succeeds. -/
theorem runLabels_cons_ok (env : Env) (hdr : String) (stage : Option String)
    (dryRun : Bool) (catalog : List Release) (lab : Label) (rest : List Label)
    (h : (processLabel env hdr stage dryRun catalog lab).2.2 = none) :
    runLabels env hdr stage dryRun catalog (lab :: rest) =
      ((processLabel env hdr stage dryRun catalog lab).1 ++
        (runLabels env hdr stage dryRun
          (processLabel env hdr stage dryRun catalog lab).2.1 rest).1,
       (runLabels env hdr stage dryRun
          (processLabel env hdr stage dryRun catalog lab).2.1 rest).2.1,
       (runLabels env hdr stage dryRun
          (processLabel env hdr stage dryRun catalog lab).2.1 rest).2.2) := by
  conv_lhs => rw [runLabels]
  simp only [h]

/-- Unrolling `runLabels` over a label whose processing raises: the loop
stops there. -/
theorem runLabels_cons_err (env : Env) (hdr : String) (stage : Option String)
    (dryRun : Bool) (catalog : List Release) (lab : Label) (rest : List Label)
    (e : String)
    (h : (processLabel env hdr stage dryRun catalog lab).2.2 = some e) :
    runLabels env hdr stage dryRun catalog (lab :: rest) =
      ((processLabel env hdr stage dryRun catalog lab).1,
       (processLabel env hdr stage dryRun catalog lab).2.1, some e) := by
  unfold runLabels
  simp only [h]

/-- The duplicate-creation invariant: provided the remote echoes the
requested name and version on successful creation, a run never issues two
`releaseCreate` calls with the same name, and never creates a name the
starting catalog already matches. -/
theorem runLabels_createNames_nodup (env : Env) (hdr : String)
    (stage : Option String)
    (hEcho : ∀ nm st v r, doCreate env nm st v = .ok r →
      r.name = nm ∧ r.version = v) :
    ∀ (labs : List Label) (catalog : List Release),
      (createNames (runLabels env hdr stage false catalog labs).1).Nodup ∧
      ∀ n, findRelease catalog n ≠ none →
        n ∉ createNames (runLabels env hdr stage false catalog labs).1
  | [], catalog => by simp [runLabels]
  | lab :: rest, catalog => by
      cases hf : findRelease catalog lab.name with
      | some r =>
          have hpl := processLabel_found env hdr stage catalog lab r hf
          cases hpr : (processIssues env hdr r.id (env.issuesOf lab.id)).2 with
          | none =>
              have hn : (processLabel env hdr stage false catalog lab).2.2 = none := by
                rw [hpl]; exact hpr
              rw [runLabels_cons_ok env hdr stage false catalog lab rest hn]
              obtain ⟨ih1, ih2⟩ := runLabels_createNames_nodup env hdr stage hEcho rest
                (processLabel env hdr stage false catalog lab).2.1
              constructor
              · simpa [hpl, createNames_processIssues] using ih1
              · intro n hmatch
                have := ih2 n (by rw [hpl]; exact hmatch)
                simpa [hpl, createNames_processIssues] using this
          | some e =>
              have hs : (processLabel env hdr stage false catalog lab).2.2 = some e := by
                rw [hpl]; exact hpr
              rw [runLabels_cons_err env hdr stage false catalog lab rest e hs]
              constructor
              · simp [hpl, createNames_processIssues]
              · intro n _
                simp [hpl, createNames_processIssues]
      | none =>
          cases hcr : doCreate env lab.name stage (some lab.name) with
          | error e =>
              have hpl := processLabel_create_err env hdr stage catalog lab e hf hcr
              have hs : (processLabel env hdr stage false catalog lab).2.2 = some e := by
                rw [hpl]
              rw [runLabels_cons_err env hdr stage false catalog lab rest e hs]
              constructor
              · simp [hpl]
              · intro n hmatch
                simp only [hpl, createNames_cons_issq, createNames_cons_create,
                  createNames_nil, List.mem_singleton]
                rintro rfl
                exact hmatch hf
          | ok r =>
              have hech := hEcho lab.name stage (some lab.name) r hcr
              have hpl := processLabel_create_ok env hdr stage catalog lab r hf hcr
              have hmr : matchesRelease lab.name r = true := by
                simp [matchesRelease, hech.2]
              have hmatchr : findRelease (catalog ++ [r]) lab.name = some r := by
                unfold findRelease at hf ⊢
                rw [find?_append_of_none _ _ _ hf]
                simp [List.find?_cons_of_pos _ hmr]
              cases hpr : (processIssues env hdr r.id (env.issuesOf lab.id)).2 with
              | some e =>
                  have hs : (processLabel env hdr stage false catalog lab).2.2 = some e := by
                    rw [hpl]; exact hpr
                  rw [runLabels_cons_err env hdr stage false catalog lab rest e hs]
                  constructor
                  · simp [hpl, createNames_processIssues]
                  · intro n hmatch
                    simp only [hpl, createNames_cons_issq, createNames_cons_create,
                      createNames_append, createNames_processIssues,
                      createNames_processIssues env hdr r.id]
                    simp only [List.nil_append, List.mem_singleton]
                    rintro rfl
                    exact hmatch hf
              | none =>
                  have hn : (processLabel env hdr stage false catalog lab).2.2 = none := by
                    rw [hpl]; exact hpr
                  rw [runLabels_cons_ok env hdr stage false catalog lab rest hn]
                  obtain ⟨ih1, ih2⟩ := runLabels_createNames_nodup env hdr stage hEcho rest
                    (catalog ++ [r])
                  have hnotin : lab.name ∉ createNames (runLabels env hdr stage false
                      (catalog ++ [r]) rest).1 := by
                    refine ih2 lab.name ?_
                    simp [hmatchr]
                  constructor
                  · simp only [hpl, createNames_append, createNames_cons_issq,
                      createNames_cons_create, createNames_processIssues,
                      List.nil_append, List.singleton_append, List.nodup_cons]
                    exact ⟨hnotin, ih1⟩
                  · intro n hmatch
                    have hne : n ≠ lab.name := by
                      rintro rfl
                      exact hmatch hf
                    have hmatch' : findRelease (catalog ++ [r]) n ≠ none := by
                      unfold findRelease at hmatch ⊢
                      cases hfn : catalog.find? (matchesRelease n) with
                      | none => exact absurd hfn hmatch
                      | some x =>
                          rw [find?_append_of_some _ _ _ _ hfn]
                          simp
                    have := ih2 n hmatch'
                    simp only [hpl, createNames_append, createNames_cons_issq,
                      createNames_cons_create, createNames_processIssues,
                      List.nil_append, List.singleton_append, List.mem_cons, not_or]
                    exact ⟨hne, this⟩

/-- **C1.** Idempotence of release matching, under the remote's contract
that a successful `releaseCreate` returns a release carrying the requested
name and version (`hEcho`): (1) whenever the working catalog already holds a
release whose version equals the sub-label's name, processing that sub-label
issues no `releaseCreate` call and every association it attempts targets the
id of a release already in the catalog; (2) across a whole run the names of
the `releaseCreate` calls are pairwise distinct — once created and appended,
a release is reused, never re-created, for every later sub-label with the
same name. -/
theorem claim_C1_release_matching_idempotent (env : Env) (hdr : String)
    (stage : Option String)
    (hEcho : ∀ nm st v r, doCreate env nm st v = .ok r →
      r.name = nm ∧ r.version = v) :
    (∀ (catalog : List Release) (lab : Label),
        (∃ r0 ∈ catalog, r0.version = some lab.name) →
        ∃ rel, rel ∈ catalog ∧
          createNames (processLabel env hdr stage false catalog lab).1 = [] ∧
          ((assocTargets (processLabel env hdr stage false catalog lab).1).all
            fun t => t == rel.id) = true) ∧
    (∀ (labs : List Label) (catalog : List Release),
        (createNames (runLabels env hdr stage false catalog labs).1).Nodup) := by
  constructor
  · intro catalog lab hex
    obtain ⟨r0, hr0, hv⟩ := hex
    have hsome : (catalog.find? (matchesRelease lab.name)).isSome := by
      rw [List.find?_isSome]
      exact ⟨r0, hr0, by simp [matchesRelease, hv]⟩
    obtain ⟨rel, hf⟩ := Option.isSome_iff_exists.mp hsome
    have hff : findRelease catalog lab.name = some rel := hf
    have hmem := List.mem_of_find?_eq_some hf
    have hpl := processLabel_found env hdr stage catalog lab rel hff
    refine ⟨rel, hmem, ?_, ?_⟩
    · rw [hpl]
      simp [createNames_processIssues]
    · rw [hpl]
      simp [assocTargets_processIssues]
  · intro labs catalog
    exact (runLabels_createNames_nodup env hdr stage hEcho labs catalog).1

/-- The oracle for the `claim_C1_release_matching_idempotent` witness: the
remote echoes name and version on creation; two sub-labels carry the same
name. -/
def envEcho : Env where
  pipelineId := "pipe"
  subLabels := [Label.mk "l1" "v1", Label.mk "l2" "v1"]
  catalog0 := []
  issuesOf := fun _ => []
  createResp := fun nm _ v =>
    .gqlData (some (ReleaseCreatePayload.mk true (Release.mk ("id-" ++ nm) nm v))) "RAW"
  assocResp := fun _ _ => .gqlData (some true) "OK"

/-- `envEcho`'s creations echo the requested name and version. -/
theorem envEcho_echo : ∀ nm st v r, doCreate envEcho nm st v = .ok r →
    r.name = nm ∧ r.version = v := by
  intro nm st v r h
  have h' : Except.ok (Release.mk ("id-" ++ nm) nm v) = (Except.ok r : Except String Release) := by
    rw [← h]
    rfl
  injection h' with h''
  rw [← h'']
  exact ⟨rfl, rfl⟩

/-- Concrete instantiation of `claim_C1_release_matching_idempotent`: a
catalog already holding version `v1` yields no creation for a `v1`
sub-label, and a run with two `v1` sub-labels creates at most one `v1`
release. -/
theorem claim_C1_witness :
    (∃ rel, rel ∈ [Release.mk "r1" "x" (some "v1")] ∧
      createNames (processLabel envEcho "H" none false
        [Release.mk "r1" "x" (some "v1")] (Label.mk "l1" "v1")).1 = [] ∧
      ((assocTargets (processLabel envEcho "H" none false
        [Release.mk "r1" "x" (some "v1")] (Label.mk "l1" "v1")).1).all
        fun t => t == rel.id) = true) ∧
    (createNames (runLabels envEcho "H" none false [] envEcho.subLabels).1).Nodup :=
  ⟨(claim_C1_release_matching_idempotent envEcho "H" none envEcho_echo).1
      [Release.mk "r1" "x" (some "v1")] (Label.mk "l1" "v1")
      ⟨Release.mk "r1" "x" (some "v1"), by simp, rfl⟩,
   (claim_C1_release_matching_idempotent envEcho "H" none envEcho_echo).2
      envEcho.subLabels []⟩

end Migrate
